import Mathlib

/-!
Verification of the fissile role-manifest model (`model` package of the
analyzed source): manifest loading, validation passes, role selection and
the content-addressable versioning engine.

The Go code is shallowly embedded:
* Go structs become Lean structures; nilable pointers and nilable maps
  become `Option`; Go maps become association lists with key-unique
  update (`mapUpsert`), and map iteration is fixed to list order (every
  place where the source's behaviour depends on map iteration order is
  followed by an explicit sort in the source, so this choice is
  unobservable in the properties below).
* The SHA1 digest is an external library; every hashing function of the
  source writes a sequence of byte strings into one hasher and returns
  the digest of the concatenated stream, so each such function is
  modelled as `H (concatenation)` for an arbitrary digest function
  `H : String → String` passed as a parameter.
* External collaborators that are part of the repository but not of the
  analyzed source (the mustache template variable extractor, the
  `validation` package port/protocol checks, the filesystem) are
  parameters, collected in `Externals`.
* Go's `sort.Sort`/`sort.Strings` is modelled by `List.insertionSort`
  over a structurally computable comparison (`strLeB`), which is proved
  equivalent to the lexicographic string order.
-/

namespace Fissile

/-- Structurally recursive lexicographic comparison of char lists,
used so that sorting in the model is kernel-computable. -/
def chLeB : List Char → List Char → Bool
  | [], _ => true
  | _ :: _, [] => false
  | a :: as, b :: bs => if a < b then true else if b < a then false else chLeB as bs

/-- Lexicographic `≤` on strings as a computable Bool (Go compares
strings bytewise; UTF-8 byte order agrees with code-point order). -/
def strLeB (s t : String) : Bool := chLeB s.data t.data

/-- The propositional form of `strLeB`, used as the sorting relation. -/
def strLeP (s t : String) : Prop := strLeB s t = true

instance : DecidableRel strLeP := fun s t => instDecidableEqBool (strLeB s t) true

theorem chLeB_iff (as bs : List Char) : chLeB as bs = true ↔ ¬ List.Lex (· < ·) bs as := by
  induction as generalizing bs with
  | nil =>
    cases bs <;> simp [chLeB]
  | cons a as ih =>
    cases bs with
    | nil =>
      simp [chLeB]
      exact List.Lex.nil
    | cons b bs =>
      simp only [chLeB]
      rcases lt_trichotomy a b with h | h | h
      · simp only [h, if_pos, true_iff]
        intro hlex
        cases hlex with
        | cons h' => exact lt_irrefl a h
        | rel h' => exact lt_asymm h h'
      · subst h
        simp only [lt_irrefl, if_neg, not_false_iff, ih bs]
        constructor
        · intro hnot hlex
          exact hnot (List.Lex.cons_iff.mp hlex)
        · intro hnot hlex
          exact hnot (List.Lex.cons hlex)
      · have h1 : ¬ a < b := lt_asymm h
        rw [if_neg h1, if_pos h]
        constructor
        · intro hfalse
          exact Bool.noConfusion hfalse
        · intro hnot
          exact (hnot (List.Lex.rel h)).elim

theorem strLeB_iff (s t : String) : strLeB s t = true ↔ s ≤ t := by
  have hle : s ≤ t ↔ ¬ t < s := ⟨fun h => not_lt_of_le h, fun h => le_of_not_lt h⟩
  rw [hle, String.lt_iff_toList_lt]
  have : (t.toList < s.toList) ↔ List.Lex (· < ·) t.data s.data := Iff.rfl
  rw [this]
  exact chLeB_iff s.data t.data

theorem strLeP_iff (s t : String) : strLeP s t ↔ s ≤ t := strLeB_iff s t

instance : IsTotal String strLeP :=
  ⟨fun a b => by
    rcases le_total a b with h | h
    · exact Or.inl ((strLeP_iff a b).mpr h)
    · exact Or.inr ((strLeP_iff b a).mpr h)⟩

instance : IsTrans String strLeP :=
  ⟨fun a b c hab hbc =>
    (strLeP_iff a c).mpr (le_trans ((strLeP_iff a b).mp hab) ((strLeP_iff b c).mp hbc))⟩

instance : IsAntisymm String strLeP :=
  ⟨fun a b hab hba => le_antisymm ((strLeP_iff a b).mp hab) ((strLeP_iff b a).mp hba)⟩

instance {ε α : Type} [DecidableEq ε] [DecidableEq α] : DecidableEq (Except ε α) := fun a b =>
  match a, b with
  | Except.ok x, Except.ok y =>
    if h : x = y then isTrue (by rw [h]) else isFalse (fun hc => h (Except.ok.inj hc))
  | Except.error x, Except.error y =>
    if h : x = y then isTrue (by rw [h]) else isFalse (fun hc => h (Except.error.inj hc))
  | Except.ok _, Except.error _ => isFalse (fun hc => Except.noConfusion hc)
  | Except.error _, Except.ok _ => isFalse (fun hc => Except.noConfusion hc)

/-- Concatenation of a list of strings (the byte stream written into a
Go `hash.Hash` by successive `Write` calls). -/
def strConcat : List String → String
  | [] => ""
  | s :: rest => s ++ strConcat rest

/-- A single-quote character as a string, used to build the quoted
error messages of the source without an apostrophe literal. -/
def sq : String := String.singleton (Char.ofNat 39)

/-- Go map lookup on an association-list model. -/
def mapLookup {α : Type} : List (String × α) → String → Option α
  | [], _ => none
  | (k, v) :: rest, key => if k = key then some v else mapLookup rest key

/-- Go map assignment `m[k] = v` on an association-list model:
replaces the binding in place if the key is present, appends otherwise. -/
def mapUpsert {α : Type} : List (String × α) → String → α → List (String × α)
  | [], k, v => [(k, v)]
  | (k0, v0) :: rest, k, v =>
    if k0 = k then (k, v) :: rest else (k0, v0) :: mapUpsert rest k v

/-! ## Data model (structs of the source) -/

/-- `RoleType` is a string in the source; unknown values are possible
(the loader has a default branch for them), so it stays a plain string. -/
def RoleTypeBoshTask : String := "bosh-task"

/-- The `bosh` role type constant. -/
def RoleTypeBosh : String := "bosh"

/-- The `docker` role type constant. -/
def RoleTypeDocker : String := "docker"

/-- `FlightStage` constant `pre-flight`. -/
def FlightStagePreFlight : String := "pre-flight"

/-- `FlightStage` constant `flight` (the default). -/
def FlightStageFlight : String := "flight"

/-- `FlightStage` constant `post-flight`. -/
def FlightStagePostFlight : String := "post-flight"

/-- `FlightStage` constant `manual`. -/
def FlightStageManual : String := "manual"

/-- A package a job depends on (external to this core; carries a
content hash and is sortable by name). -/
structure Package where
  Name : String
  SHA1 : String
deriving DecidableEq

/-- A property a job exposes (only its name matters to this core). -/
structure JobProperty where
  Name : String
deriving DecidableEq

/-- A job resolved from a release (external to this core; carries a
content hash, its properties and its package dependencies). -/
structure Job where
  Name : String
  SHA1 : String
  Properties : List JobProperty
  Packages : List Package
deriving DecidableEq

/-- `ConfigurationVariableGenerator` of the source. -/
structure ConfigurationVariableGenerator where
  ID : String
  GenType : String
  ValueType : String
deriving DecidableEq

/-- `ConfigurationVariable` of the source.  The dynamically-typed
`Default` value and the `Description` play no role in any analyzed
behaviour and are modelled as an opaque string and a string. -/
structure ConfigurationVariable where
  Name : String
  Description : String
  Generator : Option ConfigurationVariableGenerator
  Private : Bool
deriving DecidableEq

/-- `Configuration` of the source: the template mapping (a nilable Go
map, hence `Option`) and the declared variables. -/
structure Configuration where
  Templates : Option (List (String × String))
  Variables : List ConfigurationVariable
deriving DecidableEq

/-- `HealthCheck` of the source. -/
structure HealthCheck where
  URL : String
  Headers : List (String × String)
  Command : List String
  Port : Int
deriving DecidableEq

/-- `RoleRunScaling` of the source. -/
structure RoleRunScaling where
  Min : Int
  Max : Int
deriving DecidableEq

/-- `RoleRunVolume` of the source. -/
structure RoleRunVolume where
  Path : String
  Tag : String
  Size : Int
deriving DecidableEq

/-- `RoleRunExposedPort` of the source. -/
structure RoleRunExposedPort where
  Name : String
  Protocol : String
  External : String
  Internal : String
  Public : Bool
deriving DecidableEq

/-- `RoleRun` of the source. -/
structure RoleRun where
  Scaling : Option RoleRunScaling
  Capabilities : List String
  PersistentVolumes : List RoleRunVolume
  SharedVolumes : List RoleRunVolume
  Memory : Int
  VirtualCPUs : Int
  ExposedPorts : List RoleRunExposedPort
  FlightStage : String
  HealthCheck : Option HealthCheck
  Environment : List String
deriving DecidableEq

/-- `roleJob` of the source: an entry of a role's `jobs:` list. -/
structure roleJob where
  Name : String
  ReleaseName : String
deriving DecidableEq

/-- `Role` of the source.  The `Type` field is renamed `roleType` and
the `Configuration` field `configuration` (reserved words in Lean);
the non-owning `rolesManifest` back-reference is modelled by passing
the manifest file path explicitly where it is consulted. -/
structure Role where
  Name : String
  Jobs : List Job
  EnvironScripts : List String
  Scripts : List String
  PostConfigScripts : List String
  roleType : String
  JobNameList : List roleJob
  configuration : Option Configuration
  Run : Option RoleRun
  Tags : List String
deriving DecidableEq

/-- `RoleManifest` of the source.  `rolesByName` is the name index the
loader populates (a Go map, modelled as an association list). -/
structure RoleManifest where
  Roles : List Role
  configuration : Option Configuration
  manifestFilePath : String
  rolesByName : List (String × Role)
deriving DecidableEq

/-- A release of the release index (external collaborator): a name and
a job lookup. -/
structure Release where
  Name : String
  LookupJob : String → Except String Job

/-- A structured validation finding, mirroring the constructors of the
repository's `validation` package used by the analyzed source. -/
inductive ValidationError where
  | invalid (field : String) (value : String) (message : String)
  | notFound (field : String) (message : String)
  | required (field : String) (detail : String)
  | forbidden (field : String) (message : String)
deriving DecidableEq

/-- The field path a finding is reported against. -/
def ValidationError.fieldOf : ValidationError → String
  | .invalid f _ _ => f
  | .notFound f _ => f
  | .required f _ => f
  | .forbidden f _ => f

/-- External collaborators of the analyzed source: the mustache
variable extractor (`parseTemplate` in mustache.go, absent from the
analyzed source: returns the variable names a template references, or
fails on a malformed template), the filesystem, and the port/protocol
checks of the `validation` package (also absent from the analyzed
source); each checker reports findings against the field path it is
given. -/
structure Externals where
  parseTemplate : String → Option (List String)
  readFile : String → Except String String
  validatePortRange : String → String → List ValidationError
  validateProtocol : String → String → List ValidationError

/-! ## Accessors and shared helpers -/

/-- The template mapping of a role's configuration (`role.Configuration.Templates`;
empty when either pointer is nil — dereferences of it in the source only
happen after the loader has made both non-nil). -/
def roleTemplates (role : Role) : List (String × String) :=
  (role.configuration.map (fun c => c.Templates.getD [])).getD []

/-- The global template mapping of a manifest
(`roleManifest.Configuration.Templates`, same conventions). -/
def manifestTemplates (m : RoleManifest) : List (String × String) :=
  (m.configuration.map (fun c => c.Templates.getD [])).getD []

/-- The globally declared configuration variables of a manifest. -/
def manifestVariables (m : RoleManifest) : List ConfigurationVariable :=
  (m.configuration.map (fun c => c.Variables)).getD []

/-- The variables declared at role level. -/
def roleVariables (role : Role) : List ConfigurationVariable :=
  (role.configuration.map (fun c => c.Variables)).getD []

/-- Name-keyed map insertion for `ConfigurationVariable` values. -/
def cvUpsert : List ConfigurationVariable → ConfigurationVariable → List ConfigurationVariable
  | [], cv => [cv]
  | x :: rest, cv => if x.Name = cv.Name then cv :: rest else x :: cvUpsert rest cv

/-- Modelled from the spec: `MakeMapOfVariables` lives in mustache.go,
which is not part of the analyzed source.  Per the spec it "builds the
set of all declared variable names (global ∪ role-level)" as a
name-keyed map (`CVMap`); we build that map from the global
declarations followed by each role's declarations. -/
def MakeMapOfVariables (m : RoleManifest) : List ConfigurationVariable :=
  (manifestVariables m ++ m.Roles.flatMap roleVariables).foldl
    (fun acc cv => cvUpsert acc cv) []

/-! ## Validation passes -/

/-- `validateVariableSorting`: walks the declared-variable list once,
reporting every adjacent out-of-order pair. -/
def validateVariableSorting (vars : List ConfigurationVariable) : List ValidationError :=
  (vars.foldl
    (fun (st : String × List ValidationError) cv =>
      (cv.Name,
        if cv.Name < st.1 then
          st.2 ++ [ValidationError.invalid "configuration.variables" st.1
            ("Does not sort before " ++ sq ++ cv.Name ++ sq)]
        else st.2))
    ("", [])).2

/-- The variable names referenced by the per-property templates of one
role: for every job of the role and every property of that job, the
role's merged template keyed `properties.<property name>` is parsed
(malformed templates are skipped). -/
def rolePropertyRefs (E : Externals) (role : Role) : List String :=
  role.Jobs.flatMap fun job =>
    job.Properties.flatMap fun property =>
      match mapLookup (roleTemplates role) ("properties." ++ property.Name) with
      | none => []
      | some template =>
        match E.parseTemplate template with
        | none => []
        | some vars => vars

/-- The variable names referenced by the global templates of a
manifest (malformed templates are skipped). -/
def globalRefs (E : Externals) (m : RoleManifest) : List String :=
  (manifestTemplates m).flatMap fun kv =>
    match E.parseTemplate kv.2 with
    | none => []
    | some vars => vars

/-- Every variable reference the usage passes scan, in scan order:
all roles' per-property templates, then the global templates. -/
def referencedVars (E : Externals) (m : RoleManifest) : List String :=
  m.Roles.flatMap (rolePropertyRefs E) ++ globalRefs E m

/-- The unused-variable finding for a variable name. -/
def unusedErr (name : String) : ValidationError :=
  ValidationError.notFound "configuration.variables"
    ("No templates using " ++ sq ++ name ++ sq)

/-- `validateVariableUsage`: starts from the full declared map, deletes
every referenced variable, and reports the remaining non-private ones.
The source deletes names one by one while scanning and returns as soon
as the set is empty; deleting the concatenated reference list is
observationally identical (deletions from an empty set are no-ops and
an empty residual set reports nothing), and is what is modelled here. -/
def validateVariableUsage (E : Externals) (m : RoleManifest) : List ValidationError :=
  let residual :=
    (referencedVars E m).foldl
      (fun acc v => acc.filter (fun cv => ¬ cv.Name = v))
      (MakeMapOfVariables m)
  residual.foldl
    (fun acc cv => if cv.Private then acc else acc ++ [unusedErr cv.Name]) []

/-- The undeclared-variable finding: the source reports different field
paths and messages for role templates and for global templates. -/
def undeclaredErr (fromRole : Bool) (name : String) : ValidationError :=
  if fromRole then
    ValidationError.notFound "configuration.variables"
      ("No declaration of " ++ sq ++ name ++ sq)
  else
    ValidationError.notFound "configuration.templates"
      ("No variable declaration of " ++ sq ++ name ++ sq)

/-- The references scanned by `validateTemplateUsage`, each tagged with
whether it came from a role template (`true`) or a global template. -/
def taggedRefs (E : Externals) (m : RoleManifest) : List (Bool × String) :=
  (m.Roles.flatMap (rolePropertyRefs E)).map (fun v => (true, v))
    ++ (globalRefs E m).map (fun v => (false, v))

/-- The reporting scan of `validateTemplateUsage`: a referenced name
with a declaration (or already-seen placeholder) is skipped; otherwise
it is reported once and a placeholder is added so that it is not
reported again. -/
def scanUndeclared : List String → List (Bool × String) → List ValidationError
  | _, [] => []
  | declared, (tag, v) :: rest =>
    if v ∈ declared then scanUndeclared declared rest
    else undeclaredErr tag v :: scanUndeclared (v :: declared) rest

/-- The two configuration variables fissile itself provides
(scripts/dockerfiles/run.sh). -/
def builtinNames : List String := ["IP_ADDRESS", "DNS_RECORD_NAME"]

/-- `validateTemplateUsage`: reports every variable referenced by a
role per-property or global template without a declaration, once per
name, with the two built-ins counted as declared. -/
def validateTemplateUsage (E : Externals) (m : RoleManifest) : List ValidationError :=
  scanUndeclared ((MakeMapOfVariables m).map (fun cv => cv.Name) ++ builtinNames)
    (taggedRefs E m)

/-- `validateNonTemplates`: reports every global template that
references no variable at all (malformed templates are skipped). -/
def validateNonTemplates (E : Externals) (m : RoleManifest) : List ValidationError :=
  (manifestTemplates m).foldl
    (fun acc kv =>
      match E.parseTemplate kv.2 with
      | none => acc
      | some vars =>
        if vars.isEmpty then
          acc ++ [ValidationError.invalid "configuration.templates" kv.2
            ("Using " ++ sq ++ kv.1 ++ sq ++ " as a constant")]
        else acc)
    []

/-- The `checks` list of `validateHealthCheck`: one marker per health
check mechanism that is set. -/
def healthCheckMechanisms (hc : HealthCheck) : List String :=
  (if ¬ hc.URL = "" then ["url"] else [])
    ++ (if ¬ hc.Command = [] then ["command"] else [])
    ++ (if ¬ hc.Port = 0 then ["port"] else [])

/-- Rendering of a string list into an error payload (the source hands
the Go slice itself to `validation.Invalid`). -/
def renderList (l : List String) : String := strConcat (l.intersperse ", ")

/-- `validateHealthCheck`: a present health check must set exactly one
mechanism.  The source dereferences `role.Run` unconditionally; its
only caller guarantees a present run section, and an absent one yields
no finding here. -/
def validateHealthCheck (role : Role) : List ValidationError :=
  match role.Run with
  | none => []
  | some run =>
    match run.HealthCheck with
    | none => []
    | some hc =>
      let checks := healthCheckMechanisms hc
      if ¬ checks.length = 1 then
        [ValidationError.invalid ("roles[" ++ role.Name ++ "].run.healthcheck")
          (renderList checks) "Expected exactly one of url, command, or port"]
      else []

/-- `normalizeFlightStage`: an empty flight stage is silently set to
`flight`; a value outside the four stages is reported.  The source
mutates the role through its `Run` pointer; the updated role is
returned.  As in `validateHealthCheck`, an absent run section cannot
reach this code. -/
def normalizeFlightStage (role : Role) : Role × List ValidationError :=
  match role.Run with
  | none => (role, [])
  | some run =>
    if run.FlightStage = "" then
      ({ role with Run := some { run with FlightStage := FlightStageFlight } }, [])
    else if run.FlightStage = FlightStagePreFlight ∨ run.FlightStage = FlightStageFlight
        ∨ run.FlightStage = FlightStagePostFlight ∨ run.FlightStage = FlightStageManual then
      (role, [])
    else
      (role,
        [ValidationError.invalid ("roles[" ++ role.Name ++ "].run.flight-stage")
          run.FlightStage "Expected one of flight, manual, post-flight, or pre-flight"])

/-- Modelled from the spec: `validation.ValidateNonnegativeField` is
part of the repository's `validation` package, absent from the
analyzed source; per the spec the value "must be non-negative". -/
def validateNonnegativeField (value : Int) (field : String) : List ValidationError :=
  if value < 0 then [ValidationError.invalid field (toString value)
    "must be greater than or equal to 0"] else []

/-- The findings of the exposed-port loop of `validateRoleRun` for one
port: name presence, external and internal port-range validity,
protocol validity. -/
def exposedPortErrs (E : Externals) (roleName : String) (p : RoleRunExposedPort) :
    List ValidationError :=
  (if p.Name = "" then
    [ValidationError.required ("roles[" ++ roleName ++ "].run.exposed-ports.name") ""]
  else [])
    ++ E.validatePortRange p.External
        ("roles[" ++ roleName ++ "].run.exposed-ports[" ++ p.Name ++ "].external")
    ++ E.validatePortRange p.Internal
        ("roles[" ++ roleName ++ "].run.exposed-ports[" ++ p.Name ++ "].internal")
    ++ E.validateProtocol p.Protocol
        ("roles[" ++ roleName ++ "].run.exposed-ports[" ++ p.Name ++ "].protocol")

/-- The run-environment field path of a role. -/
def envField (roleName : String) : String := "roles[" ++ roleName ++ "].run.env"

/-- The environment findings of `validateRoleRun` once the environment
list is known non-empty: a docker role is checked name by name against
the declared variables; any other role is rejected outright. -/
def roleRunEnvErrs (role : Role) (declared : List String) : List ValidationError :=
  if role.roleType = RoleTypeDocker then
    (role.Run.map (fun run => run.Environment)).getD [] |>.flatMap fun envVar =>
      if envVar ∈ declared then []
      else [ValidationError.notFound (envField role.Name)
        ("No variable declaration of " ++ sq ++ envVar ++ sq)]
  else
    [ValidationError.forbidden (envField role.Name) "Non-docker role declares bogus parameters"]

/-- `validateRoleRun`: requires a present run section, then normalizes
the flight stage, validates the health check, memory, virtual CPUs and
exposed ports, and finally — only for a non-empty run-environment
list — applies the type-dependent environment policy.  Returns the
(possibly flight-stage-normalized) role together with the findings. -/
def validateRoleRun (E : Externals) (role : Role) (declared : List String) :
    Role × List ValidationError :=
  match role.Run with
  | none =>
    (role, [ValidationError.required ("roles[" ++ role.Name ++ "].run") ""])
  | some _ =>
    let st := normalizeFlightStage role
    let role := st.1
    let run := (role.Run).getD
      { Scaling := none, Capabilities := [], PersistentVolumes := [], SharedVolumes := []
        Memory := 0, VirtualCPUs := 0, ExposedPorts := [], FlightStage := ""
        HealthCheck := none, Environment := [] }
    let base := st.2
      ++ validateHealthCheck role
      ++ validateNonnegativeField run.Memory ("roles[" ++ role.Name ++ "].run.memory")
      ++ validateNonnegativeField run.VirtualCPUs ("roles[" ++ role.Name ++ "].run.virtual-cpus")
      ++ run.ExposedPorts.flatMap (exposedPortErrs E role.Name)
    if run.Environment.length = 0 then (role, base)
    else (role, base ++ roleRunEnvErrs role declared)

/-! ## Manifest loading -/

/-- The result of `LoadRoleManifest`: a load-time fatal error (in the
modelled part: a duplicate release name), an aggregated validation
failure, or the loaded manifest. -/
inductive LoadResult where
  | fatal (message : String)
  | invalid (errs : List ValidationError)
  | ok (m : RoleManifest)
deriving DecidableEq

/-- Builds the release name index, failing on the first duplicate name
(the source checks for a duplicate before inserting). -/
def mapReleasesAux : List Release → List (String × Release) →
    Except String (List (String × Release))
  | [], acc => Except.ok acc
  | rel :: rest, acc =>
    match mapLookup acc rel.Name with
    | some _ =>
      Except.error ("Error - release " ++ rel.Name ++ " has been loaded more than once")
    | none => mapReleasesAux rest (acc ++ [(rel.Name, rel)])

/-- The defaulting the loader applies to the manifest configuration: an
absent configuration becomes an empty one, and an absent template
mapping becomes an empty mapping. -/
def defaultedConfiguration : Option Configuration → Configuration
  | none => { Templates := some [], Variables := [] }
  | some c => { c with Templates := some (c.Templates.getD []) }

/-- The reverse-order filter loop of `LoadRoleManifest`, processed here
by recursion that handles the tail (the higher indices, which the
source visits first) before the head.  Per iteration the source
switches on the role type: an empty type is defaulted to `bosh` and the
role is validated; an explicit `bosh`/`bosh-task` type hits a
`continue` statement that moves to the next index WITHOUT reaching the
`validateRoleRun` call; a `docker` role is removed from the list and
then validated; any other type is reported and validated. -/
def filterAndValidateRoles (E : Externals) (declared : List String) :
    List Role → List Role × List ValidationError
  | [] => ([], [])
  | role :: rest =>
    let st := filterAndValidateRoles E declared rest
    if role.roleType = "" then
      let v := validateRoleRun E { role with roleType := RoleTypeBosh } declared
      (v.1 :: st.1, st.2 ++ v.2)
    else if role.roleType = RoleTypeBosh ∨ role.roleType = RoleTypeBoshTask then
      (role :: st.1, st.2)
    else if role.roleType = RoleTypeDocker then
      let v := validateRoleRun E role declared
      (st.1, st.2 ++ v.2)
    else
      let v := validateRoleRun E role declared
      (v.1 :: st.1,
        st.2
          ++ (ValidationError.invalid ("roles[" ++ role.Name ++ "].type") role.roleType
                "Excpected one of bosh, bosh-task, or docker" :: v.2))

/-- The job-resolution loop for one role: each `jobs:` entry is looked
up in the release index; an unknown release or an unresolvable job name
is reported and skipped, a resolved job is appended to `role.Jobs`. -/
def resolveRoleJobs (mapped : List (String × Release)) (role : Role) :
    Role × List ValidationError :=
  let st := role.JobNameList.foldl
    (fun (st : List Job × List ValidationError) rj =>
      match mapLookup mapped rj.ReleaseName with
      | none =>
        (st.1, st.2 ++ [ValidationError.invalid
          ("roles[" ++ role.Name ++ "].jobs[" ++ rj.Name ++ "]")
          rj.ReleaseName "Referenced release is not loaded"])
      | some rel =>
        match rel.LookupJob rj.Name with
        | Except.error msg =>
          (st.1, st.2 ++ [ValidationError.invalid
            ("roles[" ++ role.Name ++ "].jobs[" ++ rj.Name ++ "]")
            rj.ReleaseName msg])
        | Except.ok job => (st.1 ++ [job], st.2))
    ([], [])
  ({ role with Jobs := st.1 }, st.2)

/-- `calculateRoleConfigurationTemplates`: defaults an absent role
configuration and template mapping, then merges the global templates
with the role's own, the role's entries winning on key collision. -/
def calculateRoleConfigurationTemplates (globalTemplates : List (String × String))
    (role : Role) : Role :=
  let cfg := defaultedConfiguration role.configuration
  let ownTemplates := cfg.Templates.getD []
  let merged := ownTemplates.foldl (fun acc kv => mapUpsert acc kv.1 kv.2) globalTemplates
  { role with configuration := some { cfg with Templates := some merged } }

/-- The second loop of `LoadRoleManifest` over the surviving roles:
resolves jobs, merges templates, and populates the name index. -/
def resolveAndIndexRoles (mapped : List (String × Release))
    (globalTemplates : List (String × String)) (roles : List Role) :
    List Role × List (String × Role) × List ValidationError :=
  roles.foldl
    (fun (st : List Role × List (String × Role) × List ValidationError) role =>
      let r := resolveRoleJobs mapped role
      let r2 := calculateRoleConfigurationTemplates globalTemplates r.1
      (st.1 ++ [r2], mapUpsert st.2.1 r2.Name r2, st.2.2 ++ r.2))
    ([], [], [])

/-- The loader pipeline after the release index has been built: the
configuration defaults, the declared-variable map (computed over the
still-unfiltered roles), the reverse filter loop, job resolution,
template merging and indexing, and the four manifest-wide passes; the
result pairs the final manifest with every finding, in the order the
source accumulates them. -/
def loadStages (E : Externals) (parsed : RoleManifest)
    (mapped : List (String × Release)) : RoleManifest × List ValidationError :=
  let cfg := defaultedConfiguration parsed.configuration
  let declared := (MakeMapOfVariables { parsed with configuration := some cfg }).map
    (fun cv => cv.Name)
  let flt := filterAndValidateRoles E declared parsed.Roles
  let res := resolveAndIndexRoles mapped (cfg.Templates.getD []) flt.1
  let m : RoleManifest :=
    { parsed with configuration := some cfg, Roles := res.1, rolesByName := res.2.1 }
  (m,
    flt.2 ++ res.2.2
      ++ validateVariableSorting cfg.Variables
      ++ validateVariableUsage E m
      ++ validateTemplateUsage E m
      ++ validateNonTemplates E m)

/-- `LoadRoleManifest` (from the point where the document has been
read and unmarshalled, both external): duplicate release names are a
fatal error; then the pipeline runs, and any finding at all makes the
load fail with the aggregate list, otherwise the indexed manifest is
returned. -/
def LoadRoleManifest (E : Externals) (parsed : RoleManifest) (releases : List Release) :
    LoadResult :=
  match mapReleasesAux releases [] with
  | Except.error msg => LoadResult.fatal msg
  | Except.ok mapped =>
    let st := loadStages E parsed mapped
    if st.2.isEmpty then LoadResult.ok st.1 else LoadResult.invalid st.2

/-- `LookupRole`. -/
def LookupRole (m : RoleManifest) (roleName : String) : Option Role :=
  mapLookup m.rolesByName roleName

/-- `SelectRoles`: an empty name list selects every role; otherwise the
known names collect their roles and the unknown names collect into the
missing list, and any missing name fails the call.  The source wraps
the missing list in `fmt.Errorf("Some roles are unknown: %v", ...)`;
the error payload here is that list. -/
def SelectRoles (m : RoleManifest) (roleNames : List String) :
    Except (List String) (List Role) :=
  if roleNames.isEmpty then Except.ok m.Roles
  else
    let st := roleNames.foldl
      (fun (st : List Role × List String) roleName =>
        match mapLookup m.rolesByName roleName with
        | some role => (st.1 ++ [role], st.2)
        | none => (st.1, st.2 ++ [roleName]))
      ([], [])
    if 0 < st.2.length then Except.error st.2 else Except.ok st.1

/-! ## Versioning engine -/

/-- `HasTag`. -/
def HasTag (r : Role) (tag : String) : Bool := r.Tags.contains tag

/-- `IsDevRole`: true iff tagged `dev-only`. -/
def IsDevRole (r : Role) : Bool := r.Tags.contains "dev-only"

/-- Absolute-path test (Go `filepath.IsAbs`, external standard
library, modelled for slash paths). -/
def isAbsPath (p : String) : Bool := p.startsWith "/"

/-- Directory of a path (Go `filepath.Dir`, external standard library,
modelled as everything before the last separator). -/
def dirOfPath (p : String) : String :=
  String.intercalate "/" ((p.splitOn "/").dropLast)

/-- Path join (Go `filepath.Join`, external standard library). -/
def joinPath (dir file : String) : String := dir ++ "/" ++ file

/-- `GetScriptPaths`: maps every relative script reference (environment
scripts, scripts, post-config scripts, in that order) to its resolution
against the manifest's directory; absolute paths are skipped.  The
back-reference through which the source reads the manifest path is the
explicit `manifestFilePath` parameter. -/
def GetScriptPaths (manifestFilePath : String) (r : Role) : List (String × String) :=
  ((r.EnvironScripts ++ r.Scripts ++ r.PostConfigScripts).filter
    (fun script => ¬ isAbsPath script = true)).foldl
    (fun acc script => mapUpsert acc script (joinPath (dirOfPath manifestFilePath) script))
    []

/-- The byte stream `GetScriptSignatures` hashes: for each resolved
script path in sorted order, the path itself followed by the file's
contents; a missing or unreadable file is a hard failure. -/
def scriptStream (E : Externals) : List String → Except String String
  | [] => Except.ok ""
  | f :: rest =>
    match E.readFile f with
    | Except.error e => Except.error e
    | Except.ok contents =>
      match scriptStream E rest with
      | Except.error e => Except.error e
      | Except.ok tail => Except.ok (f ++ contents ++ tail)

/-- `GetScriptSignatures`: the digest of the sorted resolved script
paths, each followed by its file contents. -/
def GetScriptSignatures (E : Externals) (H : String → String) (manifestFilePath : String)
    (r : Role) : Except String String :=
  match scriptStream E
    (List.insertionSort strLeP ((GetScriptPaths manifestFilePath r).map (fun kv => kv.2))) with
  | Except.error e => Except.error e
  | Except.ok stream => Except.ok (H stream)

/-- The formatted line of one template entry (`fmt.Sprintf("%s: %s", k, v)`). -/
def templateLine (kv : String × String) : String := kv.1 ++ ": " ++ kv.2

/-- `GetTemplateSignatures`: the digest of the concatenation of the
role's formatted template lines, sorted as whole strings
(`sort.Strings` over the `"key: value"` lines).  The source
dereferences `r.Configuration` unconditionally; callers only reach it
with a non-nil configuration, and the nil cases contribute an empty
mapping here.  Its error return is never used in the source. -/
def GetTemplateSignatures (H : String → String) (r : Role) : String :=
  H (strConcat (List.insertionSort strLeP ((roleTemplates r).map templateLine)))

/-- Package order used by `sort.Sort(packages)` (the `Packages` slice
is external to the analyzed source; per the spec it is sortable by
name). -/
def pkgLeP (p q : Package) : Prop := strLeB p.Name q.Name = true

instance : DecidableRel pkgLeP := fun p q => instDecidableEqBool (strLeB p.Name q.Name) true

/-- `GetRoleDevVersion`: builds the role signature string — each job's
content hash in declared job order, every reachable package hash in
name-sorted order, the script signature, and, whenever the
configuration and its template mapping are non-nil, the template
signature — each piece appended as `"\n" + piece` — and digests it. -/
def GetRoleDevVersion (E : Externals) (H : String → String) (manifestFilePath : String)
    (r : Role) : Except String String :=
  let sig1 := r.Jobs.foldl (fun acc job => acc ++ "\n" ++ job.SHA1) ""
  let packages := List.insertionSort pkgLeP (r.Jobs.flatMap (fun job => job.Packages))
  let sig2 := packages.foldl (fun acc pkg => acc ++ "\n" ++ pkg.SHA1) sig1
  match GetScriptSignatures E H manifestFilePath r with
  | Except.error e => Except.error e
  | Except.ok scriptSig =>
    let sig3 := sig2 ++ "\n" ++ scriptSig
    let sig4 :=
      match r.configuration with
      | none => sig3
      | some c =>
        match c.Templates with
        | none => sig3
        | some _ => sig3 ++ "\n" ++ GetTemplateSignatures H r
    Except.ok (H sig4)

/-- Role order used by `sort.Sort(roles)` (`Roles.Less` compares names). -/
def roleLeP (r s : Role) : Prop := strLeB r.Name s.Name = true

instance : DecidableRel roleLeP := fun r s => instDecidableEqBool (strLeB r.Name s.Name) true

/-- The concatenation of the per-role signatures of a role list, in
list order; the first failing role aborts. -/
def roleVersionsStream (E : Externals) (H : String → String) (manifestFilePath : String) :
    List Role → Except String String
  | [] => Except.ok ""
  | r :: rest =>
    match GetRoleDevVersion E H manifestFilePath r with
    | Except.error e => Except.error e
    | Except.ok v =>
      match roleVersionsStream E H manifestFilePath rest with
      | Except.error e => Except.error e
      | Except.ok tail => Except.ok (v ++ tail)

/-- `GetRoleManifestDevPackageVersion`: copies the caller's role slice
(`append(Roles{}, roles...)`), sorts the copy by name, and digests the
salt followed by each role's signature in that order.  The second
component of the result is the content of the caller's slice after the
call: the sort acted on the private copy, so it is the argument
unchanged. -/
def GetRoleManifestDevPackageVersion (E : Externals) (H : String → String)
    (m : RoleManifest) (rolesArg : List Role) (extra : String) :
    Except String String × List Role :=
  let roles := List.insertionSort roleLeP rolesArg
  (match roleVersionsStream E H m.manifestFilePath roles with
    | Except.error e => Except.error e
    | Except.ok stream => Except.ok (H (extra ++ stream)),
   rolesArg)

/-! ## String and list infrastructure lemmas -/

theorem strAppendCancelLeft {p a b : String} (h : p ++ a = p ++ b) : a = b := by
  apply String.ext
  have hd := congrArg String.data h
  rw [String.data_append, String.data_append] at hd
  exact List.append_cancel_left hd

theorem strAppendCancelBoth {pre suf a b : String}
    (h : pre ++ a ++ suf = pre ++ b ++ suf) : a = b := by
  apply String.ext
  have hd := congrArg String.data h
  simp only [String.data_append] at hd
  exact List.append_cancel_left (List.append_cancel_right hd)

theorem quotedInj {pre a b : String}
    (h : pre ++ sq ++ a ++ sq = pre ++ sq ++ b ++ sq) : a = b :=
  strAppendCancelBoth h

/-- A string `c` extended on the right can never equal `d` when the two
differ within the first `k` characters of `c`. -/
theorem append_ne_of_take_ne {c d : String} (k : Nat) (hk : k ≤ c.data.length)
    (hne : ¬ c.data.take k = d.data.take k) (x : String) : ¬ c ++ x = d := by
  intro h
  have hd := congrArg String.data h
  rw [String.data_append] at hd
  have ht := congrArg (List.take k) hd
  rw [List.take_append_of_le_length hk] at ht
  exact hne ht

/-- `a` is a prefix of `b` (as strings). -/
def strPre (a b : String) : Prop := ∃ t : String, a ++ t = b

/-- Computable prefix test. -/
def strPreB (a b : String) : Bool := b.data.take a.data.length == a.data

theorem strPre_iff (a b : String) : strPre a b ↔ strPreB a b = true := by
  constructor
  · rintro ⟨t, rfl⟩
    have : (a ++ t).data = a.data ++ t.data := String.data_append a t
    simp only [strPreB, this, List.take_left, beq_iff_eq]
  · intro h
    simp only [strPreB, beq_iff_eq] at h
    refine ⟨String.mk (b.data.drop a.data.length), String.ext ?_⟩
    rw [String.data_append]
    show a.data ++ b.data.drop a.data.length = b.data
    have hsplit := List.take_append_drop a.data.length b.data
    rw [h] at hsplit
    exact hsplit

instance (a b : String) : Decidable (strPre a b) :=
  decidable_of_iff (strPreB a b = true) (strPre_iff a b).symm

theorem strPre_data {a b : String} (h : ¬ strPre a b) :
    ∀ t : List Char, ¬ a.data ++ t = b.data := by
  intro t ht
  exact h ⟨String.mk t, String.ext (by rw [String.data_append]; exact ht)⟩

theorem lexAppendList {as bs : List Char} (xs ys : List Char)
    (h : List.Lex (· < ·) as bs) (hnp : ∀ t : List Char, ¬ as ++ t = bs) :
    List.Lex (· < ·) (as ++ xs) (bs ++ ys) := by
  induction h with
  | nil => exact absurd (List.nil_append _) (hnp _)
  | @rel a l₁ b l₂ hab => exact List.Lex.rel hab
  | @cons a l₁ l₂ _ ih =>
    refine List.Lex.cons (ih ?_)
    intro t ht
    exact hnp t (by rw [List.cons_append, ht])

/-- Appending anything preserves strict order of strings when the
smaller string is not a prefix of the larger one. -/
theorem strLtAppend {k₁ k₂ : String} (x y : String) (h : k₁ < k₂) (hnp : ¬ strPre k₁ k₂) :
    k₁ ++ x < k₂ ++ y := by
  rw [String.lt_iff_toList_lt] at h ⊢
  show List.Lex (· < ·) (k₁ ++ x).data ((k₂ ++ y).data)
  rw [String.data_append, String.data_append]
  exact lexAppendList x.data y.data h (strPre_data hnp)

/-! ## Generic fold lemmas -/

theorem foldl_snoc_eq_append {α β : Type} (g : α → List β) :
    ∀ (l : List α) (init : List β),
      l.foldl (fun acc x => acc ++ g x) init = init ++ l.flatMap g := by
  intro l
  induction l with
  | nil => intro init; simp
  | cons x rest ih =>
    intro init
    simp only [List.foldl_cons, ih, List.flatMap_cons, List.append_assoc]

theorem foldl_filter_eq_filter_not_mem (refs : List String)
    (init : List ConfigurationVariable) :
    refs.foldl (fun acc v => acc.filter (fun cv => ¬ cv.Name = v)) init
      = init.filter (fun cv => ¬ cv.Name ∈ refs) := by
  induction refs generalizing init with
  | nil => simp
  | cons v rest ih =>
    simp only [List.foldl_cons, ih, List.filter_filter]
    congr 1
    funext cv
    by_cases h1 : cv.Name = v <;> by_cases h2 : cv.Name ∈ rest <;>
      simp [h1, h2]

/-! ## Concrete fixtures shared by the concrete-input theorems -/

/-- External collaborators for concrete runs: every template parses to
no variables, no file exists, port and protocol checks accept. -/
def Edefault : Externals :=
  { parseTemplate := fun _ => some []
    readFile := fun _ => Except.error "no such file"
    validatePortRange := fun _ _ => []
    validateProtocol := fun _ _ => [] }

/-- A run section with every field at its zero value. -/
def emptyRun : RoleRun :=
  { Scaling := none, Capabilities := [], PersistentVolumes := [], SharedVolumes := []
    Memory := 0, VirtualCPUs := 0, ExposedPorts := [], FlightStage := ""
    HealthCheck := none, Environment := [] }

/-- A minimal role named `r` with no run section and default type. -/
def bareRole : Role :=
  { Name := "r", Jobs := [], EnvironScripts := [], Scripts := [], PostConfigScripts := []
    roleType := "", JobNameList := [], configuration := none, Run := none, Tags := [] }

/-- A minimal manifest holding the given roles. -/
def bareManifest (roles : List Role) : RoleManifest :=
  { Roles := roles, configuration := none, manifestFilePath := "manifest.yml"
    rolesByName := [] }

/-- Whether a load result is a successfully loaded manifest. -/
def loadSucceeds : LoadResult → Bool
  | LoadResult.ok _ => true
  | _ => false

/-! ## C1 -/

/-- C1: the claim states that every role of the document — explicitly
`bosh`/`bosh-task`-typed ones included — goes through the role-run
validation pass, so a malformed run section always surfaces an error.
The code does not do this: in the filter loop, the `bosh`/`bosh-task`
switch case executes `continue`, which (continuing the surrounding
`for` loop) skips the `validateRoleRun` call for those roles.  This
theorem evaluates the loader on the failing input: a role with the
explicit type `bosh` and NO run section loads successfully with no
finding at all, while the very same role with an empty (defaulted)
type makes the load fail with the required-run finding — contradicting
both the claim and the loader's own intent that an explicit `bosh`
type and a defaulted one be treated alike. -/
theorem c1_explicit_bosh_type_skips_role_run_validation :
    loadSucceeds (LoadRoleManifest Edefault
      (bareManifest [{ bareRole with roleType := "bosh" }]) []) = true
    ∧ LoadRoleManifest Edefault (bareManifest [bareRole]) []
        = LoadResult.invalid [ValidationError.required "roles[r].run" ""] := by
  decide

/-! ## C9 -/

/-- The number of health-check mechanisms that are set. -/
def healthCheckSetCount (hc : HealthCheck) : Nat :=
  (if hc.URL = "" then 0 else 1) + (if hc.Command = [] then 0 else 1)
    + (if hc.Port = 0 then 0 else 1)

theorem healthCheckMechanisms_length (hc : HealthCheck) :
    (healthCheckMechanisms hc).length = healthCheckSetCount hc := by
  by_cases h1 : hc.URL = "" <;> by_cases h2 : hc.Command = [] <;>
    by_cases h3 : hc.Port = 0 <;>
    simp [healthCheckMechanisms, healthCheckSetCount, h1, h2, h3]

/-- C9: for a role with a present run section carrying a health check,
the health-check validation reports exactly one invalid finding when
the number of set mechanisms among URL, command and TCP port is zero
or more than one, and reports nothing when exactly one is set. -/
theorem c9_health_check_exactly_one_mechanism (role : Role) (run : RoleRun)
    (hc : HealthCheck) (hrun : role.Run = some run) (hhc : run.HealthCheck = some hc) :
    (healthCheckSetCount hc = 1 → validateHealthCheck role = [])
    ∧ (¬ healthCheckSetCount hc = 1 →
        validateHealthCheck role =
          [ValidationError.invalid ("roles[" ++ role.Name ++ "].run.healthcheck")
            (renderList (healthCheckMechanisms hc))
            "Expected exactly one of url, command, or port"]) := by
  simp only [validateHealthCheck, hrun, hhc]
  constructor
  · intro hk
    simp [healthCheckMechanisms_length, hk]
  · intro hk
    simp [healthCheckMechanisms_length, hk]

/-- A URL-only health check. -/
def urlOnlyHC : HealthCheck :=
  { URL := "http://localhost/health", Headers := [], Command := [], Port := 0 }

/-- A role carrying only a URL health check. -/
def roleWithURLHC : Role :=
  { bareRole with Run := some { emptyRun with HealthCheck := some urlOnlyHC } }

/-- Witness for C9 at a concrete input: a URL-only health check is
accepted. -/
theorem c9_witness : validateHealthCheck roleWithURLHC = [] :=
  (c9_health_check_exactly_one_mechanism roleWithURLHC
    { emptyRun with HealthCheck := some urlOnlyHC } urlOnlyHC rfl rfl).1 (by decide)

/-! ## C10 -/

/-- C10: computing the role-set signature never mutates the caller's
role list: the source sorts a freshly made copy
(`roles = append(Roles{}, roles...)`; `sort.Sort(roles)`), so the
caller-visible slice contents after the call — the second component of
the model — are the argument unchanged, for every digest function,
role list and salt. -/
theorem c10_role_set_signature_preserves_caller_list (E : Externals)
    (H : String → String) (m : RoleManifest) (rolesArg : List Role) (extra : String) :
    (GetRoleManifestDevPackageVersion E H m rolesArg extra).2 = rolesArg := rfl

/-! ## C7 -/

theorem selectRoles_foldl (idx : List (String × Role)) :
    ∀ (names : List String) (init : List Role × List String),
      names.foldl
        (fun (st : List Role × List String) roleName =>
          match mapLookup idx roleName with
          | some role => (st.1 ++ [role], st.2)
          | none => (st.1, st.2 ++ [roleName]))
        init
      = (init.1 ++ names.filterMap (mapLookup idx),
         init.2 ++ names.filter (fun n => (mapLookup idx n).isNone)) := by
  intro names
  induction names with
  | nil => intro init; simp
  | cons n rest ih =>
    intro init
    simp only [List.foldl_cons]
    cases hl : mapLookup idx n with
    | some role =>
      simp [ih, List.filterMap_cons, hl]
    | none =>
      simp [ih, List.filterMap_cons, hl]

/-- C7: selecting roles with an empty name list returns every role of
the manifest; a non-empty list with any unknown name fails with an
error carrying exactly the unknown names (in request order, never
empty); and when every requested name is known the call returns the
matching roles. -/
theorem c7_select_roles (m : RoleManifest) (names : List String) :
    (names = [] → SelectRoles m names = Except.ok m.Roles)
    ∧ ((∃ n, n ∈ names ∧ mapLookup m.rolesByName n = none) →
        SelectRoles m names
          = Except.error (names.filter (fun n => (mapLookup m.rolesByName n).isNone))
        ∧ ¬ names.filter (fun n => (mapLookup m.rolesByName n).isNone) = [])
    ∧ (¬ names = [] → (∀ n, n ∈ names → ¬ mapLookup m.rolesByName n = none) →
        SelectRoles m names = Except.ok (names.filterMap (mapLookup m.rolesByName))) := by
  refine ⟨?_, ?_, ?_⟩
  · intro h
    subst h
    simp [SelectRoles]
  · rintro ⟨n, hn, hnone⟩
    have hne : ¬ names = [] := by
      intro h
      subst h
      exact absurd hn (List.not_mem_nil n)
    have hflt : n ∈ names.filter (fun n => (mapLookup m.rolesByName n).isNone) :=
      List.mem_filter.mpr ⟨hn, by rw [hnone]; rfl⟩
    have hfne : ¬ names.filter (fun n => (mapLookup m.rolesByName n).isNone) = [] := by
      intro h
      rw [h] at hflt
      exact absurd hflt (List.not_mem_nil n)
    have hlen : 0 < (names.filter (fun n => (mapLookup m.rolesByName n).isNone)).length :=
      List.length_pos.mpr hfne
    refine ⟨?_, hfne⟩
    simp only [SelectRoles, List.isEmpty_eq_true, hne, if_neg, selectRoles_foldl,
      List.nil_append, hlen, if_pos]
    simp
  · intro hne hall
    have hfe : names.filter (fun n => (mapLookup m.rolesByName n).isNone) = [] := by
      rw [List.filter_eq_nil_iff]
      intro n hn
      have := hall n hn
      cases hl : mapLookup m.rolesByName n with
      | some role => simp
      | none => exact absurd hl this
    simp only [SelectRoles, List.isEmpty_eq_true, hne, if_neg, selectRoles_foldl,
      List.nil_append, hfe, List.length_nil, lt_irrefl, if_neg]
    simp

/-- A manifest whose name index knows only the role name `a`. -/
def selManifest : RoleManifest :=
  { bareManifest [bareRole] with rolesByName := [("a", bareRole)] }

/-- Witness for C7 at a concrete input: requesting `a` and the unknown
`x` fails naming exactly `x`. -/
theorem c7_witness : SelectRoles selManifest ["a", "x"] = Except.error ["x"] := by
  have h := (c7_select_roles selManifest ["a", "x"]).2.1 ⟨"x", by decide, by decide⟩
  rw [h.1]
  decide

/-! ## C8 -/

theorem simpleFieldNe {n X Y : String} (hXY : ¬ X = Y) :
    ¬ "roles[" ++ n ++ X = "roles[" ++ n ++ Y :=
  fun h => hXY (strAppendCancelLeft h)

theorem portFieldNeEnv (n q B : String) :
    ¬ "roles[" ++ n ++ "].run.exposed-ports[" ++ q ++ B = envField n := by
  intro h
  simp only [envField, String.append_assoc] at h
  have h1 := strAppendCancelLeft h
  have h2 := strAppendCancelLeft h1
  exact append_ne_of_take_ne 8 (by decide) (by decide) (q ++ B) h2

theorem validateHealthCheck_fields (r : Role) :
    ∀ e ∈ validateHealthCheck r, e.fieldOf = "roles[" ++ r.Name ++ "].run.healthcheck" := by
  intro e he
  unfold validateHealthCheck at he
  cases hr : r.Run with
  | none => rw [hr] at he; exact absurd he (List.not_mem_nil e)
  | some run =>
    simp only [hr] at he
    cases hhc : run.HealthCheck with
    | none => simp only [hhc] at he; exact absurd he (List.not_mem_nil e)
    | some hc =>
      simp only [hhc] at he
      by_cases hk : ¬ (healthCheckMechanisms hc).length = 1
      · rw [if_pos hk] at he
        simp only [List.mem_singleton] at he
        subst he
        rfl
      · rw [if_neg hk] at he
        exact absurd he (List.not_mem_nil e)

theorem validateNonnegativeField_fields (v : Int) (f : String) :
    ∀ e ∈ validateNonnegativeField v f, e.fieldOf = f := by
  intro e he
  unfold validateNonnegativeField at he
  by_cases hv : v < 0
  · simp only [hv, if_pos, List.mem_singleton] at he
    subst he
    rfl
  · simp only [hv, if_neg] at he
    exact absurd he (List.not_mem_nil e)

theorem exposedPortErrs_ne_env (E : Externals)
    (hport : ∀ v f, ∀ e ∈ E.validatePortRange v f, e.fieldOf = f)
    (hproto : ∀ v f, ∀ e ∈ E.validateProtocol v f, e.fieldOf = f)
    (n : String) (p : RoleRunExposedPort) :
    ∀ e ∈ exposedPortErrs E n p, ¬ e.fieldOf = envField n := by
  intro e he
  unfold exposedPortErrs at he
  simp only [List.mem_append] at he
  rcases he with ((hname | hr1) | hr2) | hr3
  · by_cases hp : p.Name = ""
    · simp only [hp, if_pos, List.mem_singleton] at hname
      subst hname
      show ¬ "roles[" ++ n ++ "].run.exposed-ports.name" = "roles[" ++ n ++ "].run.env"
      exact simpleFieldNe (by decide)
    · simp only [hp, if_neg] at hname
      exact absurd hname (List.not_mem_nil e)
  · rw [hport _ _ e hr1]
    exact portFieldNeEnv n p.Name "].external"
  · rw [hport _ _ e hr2]
    exact portFieldNeEnv n p.Name "].internal"
  · rw [hproto _ _ e hr3]
    exact portFieldNeEnv n p.Name "].protocol"

theorem normalizeFlightStage_split (role : Role) (run : RoleRun)
    (hrun : role.Run = some run) :
    (normalizeFlightStage role).1.Name = role.Name
    ∧ (normalizeFlightStage role).1.roleType = role.roleType
    ∧ (∃ run', (normalizeFlightStage role).1.Run = some run'
        ∧ run'.Environment = run.Environment
        ∧ run'.Memory = run.Memory
        ∧ run'.VirtualCPUs = run.VirtualCPUs
        ∧ run'.ExposedPorts = run.ExposedPorts
        ∧ run'.HealthCheck = run.HealthCheck)
    ∧ (∀ e ∈ (normalizeFlightStage role).2, ¬ e.fieldOf = envField role.Name) := by
  unfold normalizeFlightStage
  simp only [hrun]
  by_cases h1 : run.FlightStage = ""
  · rw [if_pos h1]
    exact ⟨rfl, rfl, ⟨_, rfl, rfl, rfl, rfl, rfl, rfl⟩,
      fun e he => absurd he (List.not_mem_nil e)⟩
  · rw [if_neg h1]
    by_cases h2 : run.FlightStage = FlightStagePreFlight ∨ run.FlightStage = FlightStageFlight
        ∨ run.FlightStage = FlightStagePostFlight ∨ run.FlightStage = FlightStageManual
    · rw [if_pos h2]
      exact ⟨rfl, rfl, ⟨run, hrun, rfl, rfl, rfl, rfl, rfl⟩,
        fun e he => absurd he (List.not_mem_nil e)⟩
    · rw [if_neg h2]
      refine ⟨rfl, rfl, ⟨run, hrun, rfl, rfl, rfl, rfl, rfl⟩, ?_⟩
      intro e he
      simp only [List.mem_singleton] at he
      subst he
      show ¬ "roles[" ++ role.Name ++ "].run.flight-stage" = envField role.Name
      exact simpleFieldNe (by decide)

theorem roleRunEnvErrs_eq (role : Role) (run' : RoleRun) (declared : List String)
    (hrun' : role.Run = some run') :
    roleRunEnvErrs role declared
      = if role.roleType = RoleTypeDocker then
          run'.Environment.flatMap (fun v =>
            if v ∈ declared then []
            else [ValidationError.notFound (envField role.Name)
              ("No variable declaration of " ++ sq ++ v ++ sq)])
        else [ValidationError.forbidden (envField role.Name)
          "Non-docker role declares bogus parameters"] := by
  unfold roleRunEnvErrs
  rw [hrun']
  rfl

theorem roleRunEnvErrs_fields (role : Role) (run' : RoleRun) (declared : List String)
    (hrun' : role.Run = some run') :
    ∀ e ∈ roleRunEnvErrs role declared, e.fieldOf = envField role.Name := by
  intro e he
  rw [roleRunEnvErrs_eq role run' declared hrun'] at he
  by_cases hd : role.roleType = RoleTypeDocker
  · rw [if_pos hd] at he
    rw [List.mem_flatMap] at he
    obtain ⟨v, _, hv⟩ := he
    by_cases hvd : v ∈ declared
    · rw [if_pos hvd] at hv
      exact absurd hv (List.not_mem_nil e)
    · rw [if_neg hvd] at hv
      simp only [List.mem_singleton] at hv
      subst hv
      rfl
  · rw [if_neg hd] at he
    simp only [List.mem_singleton] at he
    subst he
    rfl

/-- C8: with any checkers that report against the field path they are
given, the role-run pass rejects on environment grounds (findings on
the `run.env` field path) exactly as the type-dependent policy says: an
empty run-environment list is never rejected on environment grounds; a
docker role gets one finding per run-environment entry lacking a
declaration; and a non-docker role with a non-empty list gets exactly
the one forbidden finding even when every listed name is declared. -/
theorem c8_run_environment_policy (E : Externals) (role : Role) (run : RoleRun)
    (declared : List String) (hrun : role.Run = some run)
    (hport : ∀ v f, ∀ e ∈ E.validatePortRange v f, e.fieldOf = f)
    (hproto : ∀ v f, ∀ e ∈ E.validateProtocol v f, e.fieldOf = f) :
    (validateRoleRun E role declared).2.filter
        (fun e => e.fieldOf = envField role.Name)
      = if run.Environment = [] then []
        else if role.roleType = RoleTypeDocker then
          run.Environment.flatMap (fun v =>
            if v ∈ declared then []
            else [ValidationError.notFound (envField role.Name)
              ("No variable declaration of " ++ sq ++ v ++ sq)])
        else [ValidationError.forbidden (envField role.Name)
          "Non-docker role declares bogus parameters"] := by
  obtain ⟨hname, htype, ⟨run', hrun', henv, hmem', hcpu', hports', hhc'⟩, hflds⟩ :=
    normalizeFlightStage_split role run hrun
  have hbase : ∀ e ∈ (normalizeFlightStage role).2
        ++ validateHealthCheck (normalizeFlightStage role).1
        ++ validateNonnegativeField run'.Memory
            ("roles[" ++ (normalizeFlightStage role).1.Name ++ "].run.memory")
        ++ validateNonnegativeField run'.VirtualCPUs
            ("roles[" ++ (normalizeFlightStage role).1.Name ++ "].run.virtual-cpus")
        ++ run'.ExposedPorts.flatMap
            (exposedPortErrs E (normalizeFlightStage role).1.Name),
      ¬ e.fieldOf = envField role.Name := by
    intro e he
    simp only [List.mem_append] at he
    rcases he with (((h1 | h2) | h3) | h4) | h5
    · exact hflds e h1
    · rw [validateHealthCheck_fields _ e h2, hname]
      show ¬ "roles[" ++ role.Name ++ "].run.healthcheck" = "roles[" ++ role.Name ++ "].run.env"
      exact simpleFieldNe (by decide)
    · rw [validateNonnegativeField_fields _ _ e h3, hname]
      show ¬ "roles[" ++ role.Name ++ "].run.memory" = "roles[" ++ role.Name ++ "].run.env"
      exact simpleFieldNe (by decide)
    · rw [validateNonnegativeField_fields _ _ e h4, hname]
      show ¬ "roles[" ++ role.Name ++ "].run.virtual-cpus"
          = "roles[" ++ role.Name ++ "].run.env"
      exact simpleFieldNe (by decide)
    · rw [List.mem_flatMap] at h5
      obtain ⟨p, _, hp⟩ := h5
      have := exposedPortErrs_ne_env E hport hproto (normalizeFlightStage role).1.Name p e hp
      rw [hname] at this
      exact this
  have hfilterBase : ((normalizeFlightStage role).2
        ++ validateHealthCheck (normalizeFlightStage role).1
        ++ validateNonnegativeField run'.Memory
            ("roles[" ++ (normalizeFlightStage role).1.Name ++ "].run.memory")
        ++ validateNonnegativeField run'.VirtualCPUs
            ("roles[" ++ (normalizeFlightStage role).1.Name ++ "].run.virtual-cpus")
        ++ run'.ExposedPorts.flatMap
            (exposedPortErrs E (normalizeFlightStage role).1.Name)).filter
        (fun e => e.fieldOf = envField role.Name) = [] := by
    rw [List.filter_eq_nil_iff]
    intro e he
    simp only [decide_eq_true_eq]
    exact hbase e he
  simp only [validateRoleRun, hrun, hrun', Option.getD_some]
  by_cases hempty : run.Environment = []
  · have hlen : run'.Environment.length = 0 := by rw [henv, hempty]; rfl
    rw [if_pos hlen]
    simp only [hfilterBase, hempty, if_pos]
  · have hlen : ¬ run'.Environment.length = 0 := by
      rw [henv]
      intro h
      exact hempty (List.length_eq_zero.mp h)
    rw [if_neg hlen]
    simp only [List.filter_append, hfilterBase, List.nil_append, if_neg hempty]
    have henvfields := roleRunEnvErrs_fields (normalizeFlightStage role).1 run' declared hrun'
    rw [hname] at henvfields
    have hkeep : ((roleRunEnvErrs (normalizeFlightStage role).1 declared).filter
        (fun e => e.fieldOf = envField role.Name))
        = roleRunEnvErrs (normalizeFlightStage role).1 declared := by
      rw [List.filter_eq_self]
      intro e he
      simp only [decide_eq_true_eq]
      exact henvfields e he
    rw [hkeep, roleRunEnvErrs_eq (normalizeFlightStage role).1 run' declared hrun', htype,
      hname, henv]

/-- A declared-variable name list for the concrete C8 run. -/
def declaredTest : List String := ["OK_VAR"]

/-- A run section asking for one declared and one undeclared variable. -/
def dockerEnvRun : RoleRun :=
  { emptyRun with Environment := ["OK_VAR", "MISSING_VAR"] }

/-- A docker role carrying `dockerEnvRun`. -/
def dockerEnvRole : Role :=
  { bareRole with
    roleType := "docker"
    Run := some dockerEnvRun }

/-- Witness for C8 at a concrete input: the docker role with
environment `[OK_VAR, MISSING_VAR]` and only `OK_VAR` declared is
rejected with exactly one finding, for `MISSING_VAR`, on the `run.env`
field. -/
theorem c8_witness :
    (validateRoleRun Edefault dockerEnvRole declaredTest).2.filter
        (fun e => e.fieldOf = envField dockerEnvRole.Name)
      = [ValidationError.notFound (envField "r")
          ("No variable declaration of " ++ sq ++ "MISSING_VAR" ++ sq)] := by
  have h := c8_run_environment_policy Edefault dockerEnvRole dockerEnvRun declaredTest rfl
    (fun v f e he => absurd he (List.not_mem_nil e))
    (fun v f e he => absurd he (List.not_mem_nil e))
  rw [h]
  decide

/-! ## C2 -/

theorem foldl_newline {α : Type} (f : α → String) :
    ∀ (l : List α) (init : String),
      l.foldl (fun acc x => acc ++ "\n" ++ f x) init
        = init ++ strConcat (l.map (fun x => "\n" ++ f x)) := by
  intro l
  induction l with
  | nil => intro init; rw [List.foldl_nil, List.map_nil]; exact (String.append_empty init).symm
  | cons x rest ih =>
    intro init
    rw [List.foldl_cons, ih, List.map_cons]
    show init ++ "\n" ++ f x ++ strConcat (rest.map fun x => "\n" ++ f x)
      = init ++ (("\n" ++ f x) ++ strConcat (rest.map fun x => "\n" ++ f x))
    simp only [String.append_assoc]

/-- Component (a) of the per-role signature: each job's content hash,
in the role's declared job order, each prefixed by a newline. -/
def jobsHashPart (r : Role) : String :=
  strConcat (r.Jobs.map (fun job => "\n" ++ job.SHA1))

/-- Component (b): every package hash reachable from the role's jobs,
sorted by package name, each prefixed by a newline. -/
def packagesHashPart (r : Role) : String :=
  strConcat ((List.insertionSort pkgLeP (r.Jobs.flatMap (fun job => job.Packages))).map
    (fun pkg => "\n" ++ pkg.SHA1))

/-- Component (d) as the code implements it: the template signature is
appended exactly when the configuration and its template mapping are
present (non-nil), even when the mapping holds zero templates. -/
def templateSigPart (H : String → String) (r : Role) : String :=
  match r.configuration with
  | none => ""
  | some c =>
    match c.Templates with
    | none => ""
    | some _ => "\n" ++ GetTemplateSignatures H r

/-- The per-role signature laid out as the amended claim states it. -/
def roleDevVersionSpec (E : Externals) (H : String → String) (manifestFilePath : String)
    (r : Role) : Except String String :=
  match GetScriptSignatures E H manifestFilePath r with
  | Except.error e => Except.error e
  | Except.ok s =>
    Except.ok (H (jobsHashPart r ++ packagesHashPart r ++ ("\n" ++ s) ++ templateSigPart H r))

/-- Component (d) as the claim states it: a template signature only
when the role has at least one configuration template. -/
def templateSigPartClaimed (H : String → String) (r : Role) : String :=
  if (roleTemplates r).isEmpty then "" else "\n" ++ GetTemplateSignatures H r

/-- The per-role signature laid out as the claim (C2) states it. -/
def roleDevVersionClaimed (E : Externals) (H : String → String) (manifestFilePath : String)
    (r : Role) : Except String String :=
  match GetScriptSignatures E H manifestFilePath r with
  | Except.error e => Except.error e
  | Except.ok s =>
    Except.ok (H (jobsHashPart r ++ packagesHashPart r ++ ("\n" ++ s)
      ++ templateSigPartClaimed H r))

/-- C2 (amended): the per-role signature is the digest of exactly the
claimed concatenation — job hashes in declared order, package hashes
sorted by name, the script signature, then the template signature —
except that the template component is appended exactly when the
configuration and its template mapping are present (non-nil), rather
than when the role has at least one template: a role with a present
but empty template mapping still gets the component. -/
theorem c2_role_signature_layout (E : Externals) (H : String → String)
    (manifestFilePath : String) (r : Role) :
    GetRoleDevVersion E H manifestFilePath r = roleDevVersionSpec E H manifestFilePath r := by
  unfold GetRoleDevVersion roleDevVersionSpec
  cases hs : GetScriptSignatures E H manifestFilePath r with
  | error e => rfl
  | ok s =>
    have h1 : r.Jobs.foldl (fun acc job => acc ++ "\n" ++ job.SHA1) "" = jobsHashPart r := by
      rw [foldl_newline, String.empty_append]
      rfl
    have h2 : (List.insertionSort pkgLeP (r.Jobs.flatMap (fun job => job.Packages))).foldl
        (fun acc pkg => acc ++ "\n" ++ pkg.SHA1) (jobsHashPart r)
        = jobsHashPart r ++ packagesHashPart r := by
      rw [foldl_newline]
      rfl
    simp only [h1, h2]
    cases hc : r.configuration with
    | none =>
      simp only [templateSigPart, hc, String.append_empty, String.append_assoc]
    | some c =>
      cases ht : c.Templates with
      | none =>
        simp only [templateSigPart, hc, ht, String.append_empty, String.append_assoc]
      | some ts =>
        simp only [templateSigPart, hc, ht, String.append_assoc]

/-- A role with one job and a present but EMPTY template mapping. -/
def emptyTemplatesRole : Role :=
  { bareRole with
    Jobs := [{ Name := "j", SHA1 := "jsha", Properties := [], Packages := [] }]
    configuration := some { Templates := some [], Variables := [] } }

/-- Counterexample to C2 as stated: on a role with zero configuration
templates (a present but empty mapping) the code still appends the
template-signature component, so the actual dev version differs from
the value the claim predicts (no template component).  Witnessed with
the identity digest, under which the two concatenations are the
strings `"\njsha\n\n"` (code) and `"\njsha\n"` (claim). -/
theorem c2_counterexample :
    GetRoleDevVersion Edefault (fun s => s) "manifest.yml" emptyTemplatesRole
        = Except.ok "\njsha\n\n"
    ∧ roleDevVersionClaimed Edefault (fun s => s) "manifest.yml" emptyTemplatesRole
        = Except.ok "\njsha\n"
    ∧ ¬ GetRoleDevVersion Edefault (fun s => s) "manifest.yml" emptyTemplatesRole
        = roleDevVersionClaimed Edefault (fun s => s) "manifest.yml" emptyTemplatesRole := by
  decide

/-! ## C3 -/

/-- Key order on template entries ("sorting the mapping by key"). -/
def pairKeyLeP (p q : String × String) : Prop := strLeB p.1 q.1 = true

instance : DecidableRel pairKeyLeP := fun p q => instDecidableEqBool (strLeB p.1 q.1) true

/-- The template signature as the claim (C3) states it: the formatted
lines in the order obtained by sorting the mapping by key alone. -/
def templateSignatureSpecKeyOrder (H : String → String) (ts : List (String × String)) : String :=
  H (strConcat ((List.insertionSort pairKeyLeP ts).map templateLine))

/-- Two template entries whose keys are not prefixes of one another
(which also forces the keys to be distinct). -/
def keysNoPre (p q : String × String) : Prop := ¬ strPre p.1 q.1 ∧ ¬ strPre q.1 p.1

instance : DecidableRel keysNoPre := fun p q =>
  inferInstanceAs (Decidable (¬ strPre p.1 q.1 ∧ ¬ strPre q.1 p.1))

theorem keysNoPre_symm : Symmetric keysNoPre := fun _ _ h => ⟨h.2, h.1⟩

theorem lineLe_iff_keyLe (a b : String × String) (hab : ¬ strPre a.1 b.1)
    (hba : ¬ strPre b.1 a.1) :
    pairKeyLeP a b ↔ strLeP (templateLine a) (templateLine b) := by
  have hne : ¬ a.1 = b.1 := fun h => hab ⟨"", by rw [String.append_empty, h]⟩
  rw [show pairKeyLeP a b ↔ a.1 ≤ b.1 from strLeP_iff a.1 b.1, strLeP_iff]
  constructor
  · intro hle
    have hlt : a.1 < b.1 := lt_of_le_of_ne hle hne
    have hlines : templateLine a < templateLine b := by
      unfold templateLine
      rw [String.append_assoc, String.append_assoc]
      exact strLtAppend _ _ hlt hab
    exact le_of_lt hlines
  · intro hle
    by_contra hnot
    have hlt : b.1 < a.1 := lt_of_not_le hnot
    have hlines : templateLine b < templateLine a := by
      unfold templateLine
      rw [String.append_assoc, String.append_assoc]
      exact strLtAppend _ _ hlt hba
    exact absurd hle (not_le_of_lt hlines)

/-- C3 (amended): the template signature hashes the concatenation of
the role's `"key: value"` lines sorted lexicographically as whole
lines — a sorted permutation of the lines — and this line order agrees
with the order of the keys alone whenever no key of the mapping is a
prefix of another key; when one key is a proper prefix of another (and
its next character compares differently against `": "`), the two
orders can differ. -/
theorem c3_template_signature_line_order :
    (∀ (H : String → String) (r : Role),
      ∃ l, l.Perm ((roleTemplates r).map templateLine)
        ∧ l.Sorted (fun a b : String => a ≤ b)
        ∧ GetTemplateSignatures H r = H (strConcat l))
    ∧ (∀ (H : String → String) (r : Role),
        (roleTemplates r).Pairwise keysNoPre →
        GetTemplateSignatures H r = templateSignatureSpecKeyOrder H (roleTemplates r)) := by
  constructor
  · intro H r
    refine ⟨List.insertionSort strLeP ((roleTemplates r).map templateLine),
      List.perm_insertionSort strLeP _, ?_, rfl⟩
    exact List.Pairwise.imp (fun hab => (strLeP_iff _ _).mp hab)
      (List.sorted_insertionSort strLeP _)
  · intro H r hnp
    unfold GetTemplateSignatures templateSignatureSpecKeyOrder
    congr 1
    congr 1
    symm
    apply List.map_insertionSort
    intro a ha b hb
    by_cases hab : a = b
    · subst hab
      exact iff_of_true ((strLeP_iff _ _).mpr le_rfl) ((strLeP_iff _ _).mpr le_rfl)
    · have hR := List.Pairwise.forall keysNoPre_symm hnp ha hb hab
      exact lineLe_iff_keyLe a b hR.1 hR.2

/-- A role whose template keys `a` and `a0` are in a proper-prefix
relation (and `0` sorts before `:`). -/
def prefixKeyRole : Role :=
  { bareRole with
    configuration := some { Templates := some [("a", "v"), ("a0", "w")], Variables := [] } }

/-- Counterexample to C3 as stated: for keys `a` and `a0` the sorted
`"key: value"` lines come out in the order `a0` before `a` (because the
character `0` sorts before `:`), while the keys alone sort as `a`
before `a0` — so the hashed line order does NOT always agree with the
lexicographic order of the keys alone.  Witnessed with the identity
digest. -/
theorem c3_counterexample :
    GetTemplateSignatures (fun s => s) prefixKeyRole = "a0: wa: v"
    ∧ templateSignatureSpecKeyOrder (fun s => s) (roleTemplates prefixKeyRole) = "a: va0: w"
    ∧ ¬ GetTemplateSignatures (fun s => s) prefixKeyRole
        = templateSignatureSpecKeyOrder (fun s => s) (roleTemplates prefixKeyRole) := by
  decide

/-- A role whose template keys are not prefixes of one another. -/
def noPrefixKeysRole : Role :=
  { bareRole with
    configuration := some { Templates := some [("b", "y"), ("a", "x")], Variables := [] } }

/-- Witness for C3 (amended) at a concrete input: with the prefix-free
keys `b` and `a` the line order and the key order agree. -/
theorem c3_witness :
    GetTemplateSignatures (fun s => s) noPrefixKeysRole
      = templateSignatureSpecKeyOrder (fun s => s) (roleTemplates noPrefixKeysRole) :=
  c3_template_signature_line_order.2 (fun s => s) noPrefixKeysRole (by decide)

/-! ## C4 -/

/-- Whether a finding is one of the two undeclared-variable findings
for the name `X`. -/
def isUndeclaredFindingFor (X : String) (e : ValidationError) : Bool :=
  e == undeclaredErr true X || e == undeclaredErr false X

theorem undeclaredErr_inj {t : Bool} {a b : String}
    (h : undeclaredErr t a = undeclaredErr t b) : a = b := by
  cases t <;>
    (simp only [undeclaredErr, if_pos, if_neg, Bool.false_eq_true, not_false_iff,
      ValidationError.notFound.injEq, true_and] at h
     exact quotedInj h)

theorem undeclaredErr_tag_ne {a b : String} :
    ¬ undeclaredErr true a = undeclaredErr false b := by
  intro h
  have h2 := congrArg ValidationError.fieldOf h
  have h3 : ("configuration.variables" : String) = "configuration.templates" := h2
  exact absurd h3 (by decide)

theorem mention_undeclaredErr (X v : String) (t : Bool) :
    isUndeclaredFindingFor X (undeclaredErr t v) = true ↔ v = X := by
  unfold isUndeclaredFindingFor
  rw [Bool.or_eq_true, beq_iff_eq, beq_iff_eq]
  constructor
  · rintro (h | h)
    · cases t
      · exact absurd h.symm undeclaredErr_tag_ne
      · exact undeclaredErr_inj h
    · cases t
      · exact undeclaredErr_inj h
      · exact absurd h undeclaredErr_tag_ne
  · intro h
    subst h
    cases t
    · right; rfl
    · left; rfl

theorem scanUndeclared_count (X : String) :
    ∀ (l : List (Bool × String)) (d : List String),
      (scanUndeclared d l).countP (isUndeclaredFindingFor X)
        = if X ∈ l.map (fun p => p.2) ∧ ¬ X ∈ d then 1 else 0 := by
  intro l
  induction l with
  | nil => intro d; simp [scanUndeclared]
  | cons p rest ih =>
    obtain ⟨tag, v⟩ := p
    intro d
    simp only [scanUndeclared]
    by_cases hv : v ∈ d
    · rw [if_pos hv, ih d]
      by_cases hx : X = v
      · subst hx
        simp [hv]
      · simp [List.map_cons, List.mem_cons, hx]
    · rw [if_neg hv, List.countP_cons, ih (v :: d)]
      by_cases hx : X = v
      · subst hx
        have hm : isUndeclaredFindingFor X (undeclaredErr tag X) = true :=
          (mention_undeclaredErr X X tag).mpr rfl
        simp [hm, hv, List.mem_cons]
      · have hm : isUndeclaredFindingFor X (undeclaredErr tag v) = false := by
          rw [Bool.eq_false_iff]
          intro hmm
          exact hx ((mention_undeclaredErr X v tag).mp hmm).symm
        simp [hm, List.mem_cons, hx]

theorem taggedRefs_names (E : Externals) (m : RoleManifest) :
    (taggedRefs E m).map (fun p => p.2) = referencedVars E m := by
  unfold taggedRefs referencedVars
  simp [List.map_append, List.map_map, Function.comp]

/-- C4: for every variable name `X`, the template-usage pass reports
exactly one undeclared-variable finding when `X` is referenced by at
least one successfully-parsed role per-property or global template and
has no declaration (the two built-ins `IP_ADDRESS` and
`DNS_RECORD_NAME` counting as declared), and none otherwise — in
particular exactly one even when `X` appears in many templates, and
never for a declared name or a built-in. -/
theorem c4_undeclared_variable_reported_exactly_once (E : Externals) (m : RoleManifest)
    (X : String) :
    (validateTemplateUsage E m).countP (isUndeclaredFindingFor X)
      = if X ∈ referencedVars E m
            ∧ ¬ X ∈ ((MakeMapOfVariables m).map (fun cv => cv.Name) ++ builtinNames)
        then 1 else 0 := by
  unfold validateTemplateUsage
  rw [scanUndeclared_count, taggedRefs_names]

/-! ## C5 -/

theorem unusedErr_inj {a b : String} (h : unusedErr a = unusedErr b) : a = b := by
  simp only [unusedErr, ValidationError.notFound.injEq, true_and] at h
  exact quotedInj h

theorem unusedBeq (a X : String) :
    ((unusedErr a == unusedErr X) : Bool) = decide (a = X) := by
  by_cases h : a = X
  · subst h
    simp
  · rw [decide_eq_false h, beq_eq_false_iff_ne]
    exact fun hc => h (unusedErr_inj hc)

theorem reportUnused_eq :
    ∀ (l : List ConfigurationVariable) (init : List ValidationError),
      l.foldl (fun acc cv => if cv.Private then acc else acc ++ [unusedErr cv.Name]) init
        = init ++ (l.filter (fun cv => ¬ cv.Private = true)).map (fun cv => unusedErr cv.Name) := by
  intro l
  induction l with
  | nil => intro init; simp
  | cons cv rest ih =>
    intro init
    rw [List.foldl_cons]
    by_cases h : cv.Private = true
    · rw [if_pos h, ih, List.filter_cons]
      simp [h]
    · rw [if_neg h, ih, List.filter_cons]
      simp [h]

theorem cvUpsert_names (cv : ConfigurationVariable) :
    ∀ l : List ConfigurationVariable,
      (cvUpsert l cv).map (fun x => x.Name)
        = if cv.Name ∈ l.map (fun x => x.Name) then l.map (fun x => x.Name)
          else l.map (fun x => x.Name) ++ [cv.Name] := by
  intro l
  induction l with
  | nil => simp [cvUpsert]
  | cons x rest ih =>
    rw [cvUpsert]
    by_cases h : x.Name = cv.Name
    · rw [if_pos h]
      simp [h]
    · rw [if_neg h]
      simp only [List.map_cons, ih, List.mem_cons]
      by_cases hmem : cv.Name ∈ rest.map (fun x => x.Name)
      · simp [hmem]
      · have hne : ¬ cv.Name = x.Name := fun hc => h hc.symm
        simp [hmem, hne]

theorem cvUpsert_nodup (cv : ConfigurationVariable) (l : List ConfigurationVariable)
    (h : (l.map (fun x => x.Name)).Nodup) :
    ((cvUpsert l cv).map (fun x => x.Name)).Nodup := by
  rw [cvUpsert_names]
  by_cases hmem : cv.Name ∈ l.map (fun x => x.Name)
  · rw [if_pos hmem]
    exact h
  · rw [if_neg hmem]
    simp [List.nodup_append, h, hmem]

theorem makeMap_nodup_aux :
    ∀ (l : List ConfigurationVariable) (acc : List ConfigurationVariable),
      (acc.map (fun x => x.Name)).Nodup →
      ((l.foldl (fun acc cv => cvUpsert acc cv) acc).map (fun x => x.Name)).Nodup := by
  intro l
  induction l with
  | nil => intro acc h; exact h
  | cons cv rest ih =>
    intro acc h
    rw [List.foldl_cons]
    exact ih (cvUpsert acc cv) (cvUpsert_nodup cv acc h)

theorem makeMap_nodup (m : RoleManifest) :
    ((MakeMapOfVariables m).map (fun x => x.Name)).Nodup := by
  unfold MakeMapOfVariables
  exact makeMap_nodup_aux _ [] (by simp)

theorem countUnused_aux (X : String) (refs : List String) :
    ∀ l : List ConfigurationVariable, (l.map (fun cv => cv.Name)).Nodup →
      ((((l.filter (fun cv => ¬ cv.Name ∈ refs)).filter
          (fun cv => ¬ cv.Private = true)).map (fun cv => unusedErr cv.Name)).countP
        (fun e => e == unusedErr X))
      = match l.find? (fun cv => cv.Name == X) with
        | some cv => if ¬ cv.Private = true ∧ ¬ X ∈ refs then 1 else 0
        | none => 0 := by
  intro l
  induction l with
  | nil => intro _; simp
  | cons cv rest ih =>
    intro hnodup
    rw [List.map_cons, List.nodup_cons] at hnodup
    obtain ⟨hnotmem, hrest⟩ := hnodup
    by_cases hx : cv.Name = X
    · have hfind : (cv :: rest).find? (fun c => c.Name == X) = some cv :=
        List.find?_cons_of_pos _ (by simp [hx])
      rw [hfind]
      have hrest0 : (((rest.filter (fun cv => ¬ cv.Name ∈ refs)).filter
          (fun cv => ¬ cv.Private = true)).map (fun cv => unusedErr cv.Name)).countP
            (fun e => e == unusedErr X) = 0 := by
        rw [List.countP_eq_zero]
        intro e he
        simp only [List.mem_map, List.mem_filter] at he
        obtain ⟨a, ⟨⟨ha, _⟩, _⟩, rfl⟩ := he
        rw [unusedBeq]
        simp only [decide_eq_true_eq]
        intro hax
        apply hnotmem
        rw [hx, ← hax]
        exact List.mem_map_of_mem (fun cv => cv.Name) ha
      by_cases h1 : cv.Name ∈ refs
      · have hXrefs : X ∈ refs := hx ▸ h1
        rw [List.filter_cons_of_neg (by simp [h1])]
        rw [hrest0]
        simp [hXrefs]
      · rw [List.filter_cons_of_pos (by simp [h1])]
        by_cases h2 : cv.Private = true
        · rw [List.filter_cons_of_neg (by simp [h2])]
          rw [hrest0]
          simp [h2]
        · rw [List.filter_cons_of_pos (by simp [h2])]
          rw [List.map_cons, List.countP_cons, hrest0]
          have hbeq : ((unusedErr cv.Name == unusedErr X) : Bool) = true := by
            rw [unusedBeq]
            exact decide_eq_true hx
          have hXrefs : ¬ X ∈ refs := fun hc => h1 (hx ▸ hc)
          simp [hbeq, h2, hXrefs]
    · have hfind : (cv :: rest).find? (fun c => c.Name == X)
          = rest.find? (fun c => c.Name == X) :=
        List.find?_cons_of_neg _ (by simp [hx])
      rw [hfind]
      have hbeq : ((unusedErr cv.Name == unusedErr X) : Bool) = false := by
        rw [unusedBeq]
        exact decide_eq_false hx
      by_cases h1 : cv.Name ∈ refs
      · rw [List.filter_cons_of_neg (by simp [h1])]
        exact ih hrest
      · rw [List.filter_cons_of_pos (by simp [h1])]
        by_cases h2 : cv.Private = true
        · rw [List.filter_cons_of_neg (by simp [h2])]
          exact ih hrest
        · rw [List.filter_cons_of_pos (by simp [h2])]
          rw [List.map_cons, List.countP_cons, hbeq, ih hrest]
          simp

/-- C5: for every variable name `X`, the variable-usage pass reports
exactly one unused-variable finding when `X` is declared (in the
global-∪-role-level variable map) with `private: false` and no
successfully-parsed role per-property or global template references it;
a private variable is never reported, a referenced variable is never
reported, and an undeclared name is never reported. -/
theorem c5_unused_variable_reported_exactly_once (E : Externals) (m : RoleManifest)
    (X : String) :
    (validateVariableUsage E m).countP (fun e => e == unusedErr X)
      = match (MakeMapOfVariables m).find? (fun cv => cv.Name == X) with
        | some cv => if ¬ cv.Private = true ∧ ¬ X ∈ referencedVars E m then 1 else 0
        | none => 0 := by
  unfold validateVariableUsage
  rw [foldl_filter_eq_filter_not_mem, reportUnused_eq, List.nil_append]
  exact countUnused_aux X (referencedVars E m) (MakeMapOfVariables m) (makeMap_nodup m)

/-! ## C6 -/

theorem mapUpsert_lookup {α : Type} (k : String) (v : α) (k' : String) :
    ∀ m : List (String × α),
      mapLookup (mapUpsert m k v) k' = if k = k' then some v else mapLookup m k' := by
  intro m
  induction m with
  | nil =>
    by_cases h : k = k' <;> simp [mapUpsert, mapLookup, h]
  | cons kv rest ih =>
    obtain ⟨k0, v0⟩ := kv
    rw [mapUpsert]
    by_cases h0 : k0 = k
    · subst h0
      by_cases h : k0 = k'
      · subst h
        simp [mapLookup]
      · simp [mapLookup, h]
    · rw [if_neg h0]
      by_cases h : k0 = k'
      · subst h
        have hkk : ¬ k = k0 := fun hc => h0 hc.symm
        simp [mapLookup, ih, hkk]
      · simp [mapLookup, h, ih]

theorem resolveAndIndex_aux (mapped : List (String × Release))
    (globalTemplates : List (String × String)) :
    ∀ (roles : List Role) (st : List Role × List (String × Role) × List ValidationError),
      (∀ r ∈ st.1, (mapLookup st.2.1 r.Name).isSome = true) →
      ∀ r ∈ (roles.foldl
          (fun (st : List Role × List (String × Role) × List ValidationError) role =>
            let r := resolveRoleJobs mapped role
            let r2 := calculateRoleConfigurationTemplates globalTemplates r.1
            (st.1 ++ [r2], mapUpsert st.2.1 r2.Name r2, st.2.2 ++ r.2)) st).1,
        (mapLookup ((roles.foldl
          (fun (st : List Role × List (String × Role) × List ValidationError) role =>
            let r := resolveRoleJobs mapped role
            let r2 := calculateRoleConfigurationTemplates globalTemplates r.1
            (st.1 ++ [r2], mapUpsert st.2.1 r2.Name r2, st.2.2 ++ r.2)) st).2.1) r.Name).isSome
          = true := by
  intro roles
  induction roles with
  | nil => intro st hst; exact hst
  | cons role rest ih =>
    intro st hst
    rw [List.foldl_cons]
    apply ih
    intro r hr
    simp only [List.mem_append, List.mem_singleton] at hr
    rcases hr with hr | hr
    · rw [mapUpsert_lookup]
      by_cases hk : (calculateRoleConfigurationTemplates globalTemplates
          (resolveRoleJobs mapped role).1).Name = r.Name
      · rw [if_pos hk]
        rfl
      · rw [if_neg hk]
        exact hst r hr
    · subst hr
      rw [mapUpsert_lookup, if_pos rfl]
      rfl

/-- C6: once the release index builds (no duplicate release name), the
load either fails carrying exactly the concatenation of every finding
of every pass — the filter loop, job resolution, variable sorting,
variable usage, template usage and the constant-template pass, in that
order, with no manifest returned — or, when that aggregate list is
empty, returns the resolved manifest whose role-name index resolves
every final role's name. -/
theorem c6_load_manifest_aggregate_or_indexed (E : Externals) (parsed : RoleManifest)
    (releases : List Release) (mapped : List (String × Release))
    (hrel : mapReleasesAux releases [] = Except.ok mapped) :
    let cfg := defaultedConfiguration parsed.configuration
    let declared := (MakeMapOfVariables { parsed with configuration := some cfg }).map
      (fun cv => cv.Name)
    let flt := filterAndValidateRoles E declared parsed.Roles
    let res := resolveAndIndexRoles mapped (cfg.Templates.getD []) flt.1
    let m : RoleManifest :=
      { parsed with configuration := some cfg, Roles := res.1, rolesByName := res.2.1 }
    let errs := flt.2 ++ res.2.2
      ++ validateVariableSorting cfg.Variables
      ++ validateVariableUsage E m
      ++ validateTemplateUsage E m
      ++ validateNonTemplates E m
    (¬ errs = [] → LoadRoleManifest E parsed releases = LoadResult.invalid errs)
    ∧ (errs = [] →
        LoadRoleManifest E parsed releases = LoadResult.ok m
        ∧ ∀ role ∈ m.Roles, (LookupRole m role.Name).isSome = true) := by
  intro cfg declared flt res m errs
  have hstages : loadStages E parsed mapped = (m, errs) := rfl
  constructor
  · intro hne
    simp only [LoadRoleManifest, hrel]
    rw [hstages]
    have hie : ¬ (m, errs).2.isEmpty = true := by
      simp only [List.isEmpty_iff]
      exact hne
    rw [if_neg hie]
  · intro he
    refine ⟨?_, ?_⟩
    · simp only [LoadRoleManifest, hrel]
      rw [hstages]
      have hie : (m, errs).2.isEmpty = true := by
        simp only [List.isEmpty_iff]
        exact he
      rw [if_pos hie]
    · intro role hrole
      show (mapLookup res.2.1 role.Name).isSome = true
      have := resolveAndIndex_aux mapped (cfg.Templates.getD []) flt.1 ([], [], [])
        (fun r hr => absurd hr (List.not_mem_nil r))
      exact this role hrole

/-- A manifest that loads with no finding: one default-typed role with
an all-zero run section. -/
def cleanManifest : RoleManifest :=
  bareManifest [{ bareRole with Run := some emptyRun }]

/-- Witness for C6 at a concrete input: the clean manifest loads
successfully (the aggregate finding list is empty, so the manifest is
returned). -/
theorem c6_witness :
    LoadRoleManifest Edefault cleanManifest []
      = LoadResult.ok (loadStages Edefault cleanManifest []).1 :=
  ((c6_load_manifest_aggregate_or_indexed Edefault cleanManifest [] [] rfl).2 (by decide)).1

end Fissile
